import Mathlib

/-!
Shallow embedding of `src/get.py` (lapis-tokens): a batch utility that
resolves a list of token addresses, fetches token details over HTTP for
each, inserts one document per successful fetch into a document store,
and writes results to stdout and optionally to disk.

External effects (HTTP responses, Mongo insert outcomes, filesystem
checks and write outcomes, environment variables, the wall clock) are
supplied by an explicit `Config` record of oracles; the run is modelled
as a pure function producing an `Outcome` that carries the ordered trace
of effect calls (`Event` list) and the accumulated per-address results.
-/

namespace LapisTokens

/-- Opaque JSON payload returned by the API; the program treats it
verbatim (stores and serializes it without inspecting it), so it is
modelled as an abstract token. -/
abbrev TokenData := String

/-- The double-quote character. -/
def dquoteChar : Char := Char.ofNat 34

/-- The single-quote character. -/
def squoteChar : Char := Char.ofNat 39

/-- Python `str.strip(c)` for a single character `c`: removes every
leading and trailing occurrence of `c`. -/
def stripCharList (c : Char) (l : List Char) : List Char :=
  ((l.dropWhile (fun x => x = c)).reverse.dropWhile (fun x => x = c)).reverse

/-- String version of `stripCharList`. -/
def stripChar (c : Char) (s : String) : String :=
  String.mk (stripCharList c s.toList)

/-- Python `\s` on ASCII text: the six ASCII whitespace characters. -/
def pyWs (c : Char) : Bool :=
  c = ' ' || c = '\t' || c = '\n' || c = '\r' || c = '\x0b' || c = '\x0c'

/-- Python `str.strip()` with no argument: removes leading and trailing
whitespace (modelled on the ASCII whitespace set). -/
def pyStripList (l : List Char) : List Char :=
  ((l.dropWhile pyWs).reverse.dropWhile pyWs).reverse

/-- String version of `pyStripList`. -/
def pyStrip (s : String) : String :=
  String.mk (pyStripList s.toList)

/-- Split a character list at every separator character, keeping empty
fields (the splitting convention of both Python's `str.split` with a
separator and Lean's `String.split`). -/
def splitChars (p : Char → Bool) : List Char → List (List Char)
  | [] => [[]]
  | c :: r =>
    let rest := splitChars p r
    if p c then [] :: rest
    else
      match rest with
      | s :: ss => (c :: s) :: ss
      | [] => [[c]]

/-- String version of `splitChars`. -/
def strSplit (s : String) (p : Char → Bool) : List String :=
  (splitChars p s.toList).map String.mk

/-- Splitting used at `get.py:44` and `get.py:60`:
`[p.strip() for p in re.split(r"[,\n]+", v) if p.strip()]`.
Splitting on single characters then dropping empty stripped parts is
equivalent to splitting on maximal runs of `,`/newline, because the
extra empty fields produced between adjacent separators are filtered. -/
def splitAddrs (v : String) : List String :=
  ((strSplit v fun c => c = ',' || c = '\n').map pyStrip).filter (fun p => p ≠ "")

/-- Splitting used at `get.py:50`:
`[p.strip() for p in raw.split(",") if p.strip()]` (commas only). -/
def splitCommas (s : String) : List String :=
  ((strSplit s fun c => c = ',').map pyStrip).filter (fun p => p ≠ "")

/-- Truthiness of an optional environment/CLI string in Python:
`None` and the empty string are falsy. -/
def truthy : Option String → Bool
  | none => false
  | some s => s ≠ ""

/-- The hard-coded fallback address, `get.py:33`. -/
def DEFAULT_ADDRESS : String := "FUAfBo2jgks6gB4Z4LfZkqSZgzNucisEHqnNebaRxM1P"

/-- The three recognized address-list keys, in priority order
(`get.py:39` and `get.py:56`). -/
def envKeys : List String := ["ADDRESSES", "TOKENS", "TOKENS_LIST"]

/-- Consume `key` case-insensitively at the head of `t`
(the `KEY` part of the pattern at `get.py:40`, compiled with
`re.IGNORECASE`); returns the rest on success. -/
def dropKeyCI : List Char → List Char → Option (List Char)
  | [], r => some r
  | _ :: _, [] => none
  | k :: ks, c :: r => if k.toLower = c.toLower then dropKeyCI ks r else none

/-- Attempt the `(.+)$` part of the pattern at `get.py:40` with the
leading `\s*` having consumed exactly `k` characters: succeeds when a
character remains that is not a newline (`.` excludes newlines), and
captures greedily to the end of that line (after which `$` holds under
`re.MULTILINE`). -/
def captureAt (r : List Char) (k : Nat) : Option (List Char) :=
  match r.drop k with
  | [] => none
  | c :: _ => if c = '\n' then none else some ((r.drop k).takeWhile (fun x => x ≠ '\n'))

/-- Greedy backtracking for `\s*(.+)$`: the `\s*` prefers to consume as
many whitespace characters as possible, backing off one at a time until
`(.+)$` can match. -/
def greedyCapture (r : List Char) : Nat → Option (List Char)
  | 0 => captureAt r 0
  | k + 1 =>
    match captureAt r (k + 1) with
    | some cap => some cap
    | none => greedyCapture r k

/-- Match `\s*(.+)$` against `r` (the text following the `=` sign),
returning the captured group. -/
def captureVal (r : List Char) : Option (List Char) :=
  greedyCapture r (r.takeWhile pyWs).length

/-- Match the whole pattern `KEY\s*=\s*(.+)$` of `get.py:40` at a given
line start; `\s*` before `=` deterministically consumes the maximal
whitespace run, since `=` is not a whitespace character. -/
def matchKeyAt (key : List Char) (t : List Char) : Option (List Char) :=
  match dropKeyCI key t with
  | none => none
  | some r1 =>
    match r1.dropWhile pyWs with
    | c :: r3 => if c = '=' then captureVal r3 else none
    | [] => none

/-- All suffixes of `t` that begin immediately after a newline, in
order of occurrence; together with `t` itself these are exactly the
positions where `^` matches under `re.MULTILINE`. -/
def tailsAfterNewlines : List Char → List (List Char)
  | [] => []
  | c :: r =>
    if c = '\n' then r :: tailsAfterNewlines r else tailsAfterNewlines r

/-- Return the first successful match of the keyed pattern over a list
of candidate line-start suffixes (leftmost match of `re.search`). -/
def firstKeyMatch (key : List Char) : List (List Char) → Option (List Char)
  | [] => none
  | s :: rest =>
    match matchKeyAt key s with
    | some cap => some cap
    | none => firstKeyMatch key rest

/-- `re.search(rf"^{key}\s*=\s*(.+)$", text, re.MULTILINE | re.IGNORECASE)`,
returning the captured value group of the leftmost match. -/
def searchKeyLine (key : List Char) (t : List Char) : Option (List Char) :=
  firstKeyMatch key (t :: tailsAfterNewlines t)

/-- First recognized key whose pattern matches anywhere in the file
text (`get.py:39`-`get.py:45`), with its captured value. -/
def searchEnvKeys (text : String) : List String → Option String
  | [] => none
  | k :: ks =>
    match searchKeyLine k.toList text.toList with
    | some cap => some (String.mk cap)
    | none => searchEnvKeys text ks

/-- Is this character one of the two quote characters? -/
def isQuoteChar (c : Char) : Bool := c = dquoteChar || c = squoteChar

/-- `re.sub(r"^['\"]|['\"]$", "", val)` at `get.py:43`: removes one
leading quote character and one trailing quote character (each only if
present); the two matches of the alternation do not overlap. -/
def stripOneQuoteEnds (l : List Char) : List Char :=
  let l1 :=
    match l with
    | c :: r => if isQuoteChar c then r else l
    | [] => []
  match l1.getLast? with
  | some c => if isQuoteChar c then l1.dropLast else l1
  | none => l1

/-- The fallback pattern `"([^\"]{50,})"` at `get.py:47`: the leftmost
double-quoted run of at least 50 non-quote characters.  Splitting the
text on the double-quote character, every inner segment (all but the
first and the last) lies between two consecutive quotes; the regex
matches the first such segment of length at least 50. -/
def longQuoted (text : String) : Option String :=
  ((((splitChars (fun c => c = dquoteChar) text.toList).drop 1).dropLast.find?
    (fun s => 50 ≤ s.length)).map String.mk)

/-- `extract_addresses_from_env_file` (`get.py:36`-`get.py:52`), with
the file's text passed in place of the path: first try the three
recognized keys (returning that key's split value even when the split
is empty), then fall back to the long-quoted-string scan. -/
def extract_addresses_from_env_file (text : String) : List String :=
  match searchEnvKeys text envKeys with
  | some captured =>
    splitAddrs (String.mk (stripOneQuoteEnds (pyStrip captured).toList))
  | none =>
    match longQuoted text with
    | some raw => splitCommas raw
    | none => []

/-- A `SavePath` distinguishes a per-address file inside the output
directory (`out / f"{addr}.json"`, `get.py:142`-`get.py:143`) from the
combined output path used verbatim (`get.py:160`). -/
inductive SavePath where
  | inDir (dir : String) (fname : String)
  | plain (raw : String)
  deriving DecidableEq, Repr

/-- Outcome of one `requests.get` call (`get.py:75`): either the server
produced a response (with status, body text and parsed JSON payload) or
the request failed at the transport level (connection, timeout, DNS),
which `requests` raises as a `RequestException`.  JSON parsing of the
body is abstracted: the payload is opaque to the program. -/
inductive FetchOutcome where
  | resp (status : Nat) (text : String) (data : TokenData)
  | transportErr (msg : String)
  deriving DecidableEq, Repr

/-- The two request-level exception kinds raised by the fetch:
`requests.HTTPError` (a subclass of `RequestException`, raised by
`raise_for_status`; carries the response, hence its status code and
body text) and any other `requests.RequestException`. -/
inductive FetchErr where
  | httpError (status : Nat) (text : String)
  | requestException (msg : String)
  deriving DecidableEq, Repr

/-- Exceptions that can escape one iteration of the main loop: a fetch
error (caught at `get.py:145`/`get.py:148`) or an `OSError` from the
filesystem write in `save_result` (caught nowhere). -/
inductive Exn where
  | fetchErr (e : FetchErr)
  | osError (msg : String)
  deriving DecidableEq, Repr

/-- `requests.Response.raise_for_status` raises `HTTPError` exactly for
4xx client errors and 5xx server errors (its implementation tests
`400 <= status_code < 500` and `500 <= status_code < 600`). -/
def raisesForStatus (s : Nat) : Bool :=
  decide (400 ≤ s ∧ s < 500) || decide (500 ≤ s ∧ s < 600)

/-- `get_token_details` (`get.py:72`-`get.py:77`) given the outcome of
its single `requests.get` call: transport failures propagate as
`RequestException`; a response is passed through `raise_for_status` and
its parsed JSON body is returned otherwise. -/
def get_token_details : FetchOutcome → Except FetchErr TokenData
  | .transportErr m => .error (.requestException m)
  | .resp s t d =>
    if raisesForStatus s then .error (.httpError s t) else .ok d

/-- Abstraction of Python `str(e)` for an `HTTPError` (the exact
rendering, including the reason phrase and URL, is produced inside the
`requests` library; only the status code is modelled). -/
def strHTTPError (status : Nat) : String :=
  "HTTP error " ++ toString status

/-- Per-address outcome dictionary, `get.py:133`/`get.py:139`/
`get.py:147`/`get.py:150`: `{"ok": True}`, `{"ok": False,
"mongo_error": m}`, `{"error": e, "status_code": c}` (the
`status_code` key is present, possibly `None`), or `{"error": e}`. -/
inductive ResultRecord where
  | okTrue
  | okFalse (mongo_error : String)
  | httpErrRec (error : String) (status_code : Option Nat)
  | transportErrRec (error : String)
  deriving DecidableEq, Repr

/-- The document inserted by `store_to_mongo` (`get.py:83`-`get.py:89`):
`{"address": .., "fetched_at": .., "data": ..}`. -/
structure MongoDoc where
  address : String
  fetched_at : Nat
  data : TokenData
  deriving DecidableEq, Repr

/-- The content written by a `save_result` call: either one address's
raw API payload (`get.py:143`) or the combined results mapping
(`get.py:160`). -/
inductive FileContent where
  | payload (d : TokenData)
  | mapping (m : List (String × ResultRecord))
  deriving DecidableEq, Repr

/-- One externally visible effect call of the run, in program order. -/
inductive Event where
  | fetchCall (addr : String)
  | sampleClock (t : Nat)
  | insertCall (doc : MongoDoc)
  | mkdirCall (target : SavePath)
  | writeCall (target : SavePath) (content : FileContent)
  | sleepCall
  | printResults (m : List (String × ResultRecord))
  deriving DecidableEq, Repr

/-- Oracles for every external effect the program performs.  `fetch` and
`insertErr` are indexed by the loop iteration (each iteration makes at
most one call of each); `writeErr` is the `OSError` raised by the write
for a given target, if any; `clock` gives the value of the `n`-th
`datetime.now` call of the process. -/
structure Config where
  api_key : Option String
  mongo_uri : Option String
  envVars : String → Option String
  envFile : Option String
  outExists : String → Bool
  outIsDir : String → Bool
  connectErr : Option String
  clock : Nat → Nat
  fetch : Nat → String → FetchOutcome
  insertErr : Nat → Option String
  writeErr : SavePath → Option String

/-- Parsed command-line arguments (`get.py:92`-`get.py:96`); `--delay`
only controls the sleep duration and is not modelled beyond the sleep
call itself. -/
structure Args where
  address : Option String
  out : Option String

/-- One step of the env-var branch of `load_addresses`
(`get.py:56`-`get.py:62`): the cleaned and split value of a key, empty
when the variable is unset, empty, or splits to nothing. -/
def envParts (cfg : Config) (key : String) : List String :=
  match cfg.envVars key with
  | none => []
  | some v =>
    if v = "" then []
    else splitAddrs (stripChar squoteChar (stripChar dquoteChar (pyStrip v)))

/-- The env-var loop of `load_addresses`: first key with a non-empty
split wins; a set-but-unproductive key falls through to the next. -/
def firstEnvParts (cfg : Config) : List String → List String
  | [] => []
  | k :: ks =>
    let p := envParts cfg k
    if p = [] then firstEnvParts cfg ks else p

/-- `load_addresses` (`get.py:54`-`get.py:70`): env vars, then the
`.env` file scan (when the file exists), then the single fallback. -/
def load_addresses (cfg : Config) : List String :=
  let p := firstEnvParts cfg envKeys
  if p ≠ [] then p
  else
    match cfg.envFile with
    | some text =>
      let parts := extract_addresses_from_env_file text
      if parts ≠ [] then parts else [DEFAULT_ADDRESS]
    | none => [DEFAULT_ADDRESS]

/-- The address list before trimming (`get.py:98`-`get.py:101`): a
truthy `--address` override alone, otherwise `load_addresses`. -/
def rawAddresses (cfg : Config) (args : Args) : List String :=
  match args.address with
  | some a => if a ≠ "" then [a] else load_addresses cfg
  | none => load_addresses cfg

/-- The resolved address list (`get.py:103`): entries trimmed, empties
discarded. -/
def resolveAddresses (cfg : Config) (args : Args) : List String :=
  ((rawAddresses cfg args).map pyStrip).filter (fun a => a ≠ "")

/-- The final path component of a path string, as `pathlib` computes it
on POSIX: split on `/`, drop empty and `.` components, take the last
(so trailing separators do not contribute a name). -/
def pathName (raw : String) : String :=
  (((strSplit raw fun c => c = '/').filter fun s => s ≠ "" ∧ s ≠ ".").getLast?).getD ""

/-- Index of the last `.` in a character list, if any. -/
def rfindDot (l : List Char) : Option Nat :=
  match l.reverse.findIdx? (fun c => c = '.') with
  | some j => some (l.length - 1 - j)
  | none => none

/-- `pathlib.PurePath.suffix` on the path's name: `name[i:]` for the
last dot index `i` when `0 < i < len(name) - 1`, else empty. -/
def pySuffix (nm : String) : String :=
  let l := nm.toList
  match rfindDot l with
  | some i => if 0 < i ∧ i < l.length - 1 then String.mk (l.drop i) else ""
  | none => ""

/-- Python `s.endswith(c)` for a one-character suffix `c`: the last
character of `s` equals `c`. -/
def endsWithSep (s : String) (c : Char) : Bool :=
  match s.toList.getLast? with
  | some x => x = c
  | none => false

/-- The output-path classification of `get.py:110`-`get.py:114`:
directory when the path exists and is a directory, or the raw argument
ends with a separator (`/` or `\`); additionally when neither holds and
the path has no suffix. -/
def is_out_dir_calc (ex isDir : Bool) (raw : String) : Bool :=
  let b := (ex && isDir) || (endsWithSep raw '/' || endsWithSep raw '\\')
  if !b && (pySuffix (pathName raw) == "") then true else b

/-- The effective `--out` value (`get.py:109`): `Path(args.out)` when
`args.out` is truthy, else `None`. -/
def outArg (args : Args) : Option String :=
  match args.out with
  | some o => if o ≠ "" then some o else none
  | none => none

/-- The `is_out_dir` flag as computed by `main` (false when no output
path was supplied). -/
def isOutDirOf (cfg : Config) (args : Args) : Bool :=
  match outArg args with
  | some o => is_out_dir_calc (cfg.outExists o) (cfg.outIsDir o) o
  | none => false

/-- Mutable state of the fetch loop: the `results` dict (insertion
ordered, later assignments to an existing key overwrite in place, as a
Python dict) and the effect trace so far. -/
structure LoopState where
  results : List (String × ResultRecord)
  events : List Event
  deriving DecidableEq, Repr

/-- `results[addr] = v` on a Python dict: overwrite in place when the
key is present, append otherwise. -/
def dictInsert (k : String) (v : ResultRecord) :
    List (String × ResultRecord) → List (String × ResultRecord)
  | [] => [(k, v)]
  | (k', v') :: rest =>
    if k' = k then (k, v) :: rest else (k', v') :: dictInsert k v rest

/-- The record stored by the two `except` clauses at
`get.py:145`-`get.py:150`. -/
def recordOfFetchErr : FetchErr → ResultRecord
  | .httpError s _t => .httpErrRec (strHTTPError s) (some s)
  | .requestException m => .transportErrRec m

/-- The exception handlers wrapped around the loop body
(`get.py:145`-`get.py:150`): `requests.HTTPError` and
`requests.RequestException` are caught (recording a result for the
address); any other exception is not handled (`none`). -/
def handleExn (addr : String) (e : Exn)
    (results : List (String × ResultRecord)) :
    Option (List (String × ResultRecord)) :=
  match e with
  | .fetchErr fe => some (dictInsert addr (recordOfFetchErr fe) results)
  | .osError _ => none

/-- The `try` block of one loop iteration (`get.py:130`-`get.py:144`):
fetch; on success record `{"ok": True}`, attempt the Mongo insert
(recording `{"ok": False, ..}` on `PyMongoError`), write the
per-address file when directory output was requested (an `OSError` from
the write propagates), then sleep.  Returns the effect calls made, the
updated results dict, and the escaping exception if any. -/
def iterBody (cfg : Config) (out : Option String) (dirMode : Bool)
    (runTs : Nat) (i : Nat) (addr : String)
    (results : List (String × ResultRecord)) :
    List Event × List (String × ResultRecord) × Option Exn :=
  match get_token_details (cfg.fetch i addr) with
  | .error e => ([Event.fetchCall addr], results, some (.fetchErr e))
  | .ok data =>
    let res1 := dictInsert addr .okTrue results
    let doc : MongoDoc := ⟨addr, runTs, data⟩
    let res2 :=
      match cfg.insertErr i with
      | some m => dictInsert addr (.okFalse m) res1
      | none => res1
    match out, dirMode with
    | some o, true =>
      let target := SavePath.inDir o (addr ++ ".json")
      match cfg.writeErr target with
      | some m =>
        ([Event.fetchCall addr, Event.insertCall doc, Event.mkdirCall target,
          Event.writeCall target (.payload data)], res2, some (.osError m))
      | none =>
        ([Event.fetchCall addr, Event.insertCall doc, Event.mkdirCall target,
          Event.writeCall target (.payload data), Event.sleepCall], res2, none)
    | _, _ =>
      ([Event.fetchCall addr, Event.insertCall doc, Event.sleepCall], res2, none)

/-- The fetch loop (`get.py:129`-`get.py:150`): run the body per
address in order; a caught exception records its result and the loop
advances; an uncaught one aborts the loop, returning it. -/
def runLoop (cfg : Config) (out : Option String) (dirMode : Bool)
    (runTs : Nat) : Nat → List String → LoopState → LoopState × Option Exn
  | _, [], st => (st, none)
  | i, addr :: rest, st =>
    let r := iterBody cfg out dirMode runTs i addr st.results
    let st' : LoopState := ⟨r.2.1, st.events ++ r.1⟩
    match r.2.2 with
    | none => runLoop cfg out dirMode runTs (i + 1) rest st'
    | some e =>
      match handleExn addr e st'.results with
      | some res' => runLoop cfg out dirMode runTs (i + 1) rest ⟨res', st'.events⟩
      | none => (st', some e)

/-- Result of one process invocation: an early `sys.exit`, an abort by
an uncaught exception (carrying the trace and the partial results dict,
which is never printed), or normal completion. -/
inductive Outcome where
  | exited (code : Nat)
  | crashed (e : Exn) (events : List Event) (results : List (String × ResultRecord))
  | completed (events : List Event) (results : List (String × ResultRecord))
  deriving DecidableEq, Repr

/-- Initial loop state: the single `datetime.now` sample of the run
(`get.py:127`) has just been taken. -/
def loopInit (ts : Nat) : LoopState :=
  ⟨[], [Event.sampleClock ts]⟩

/-- The epilogue after the loop (`get.py:152`-`get.py:161`): an escaped
exception propagates (no summary printed); otherwise the results
mapping is printed and, when a non-directory output path was given, the
combined mapping is written there via `save_result` (whose `mkdir` of
the parent precedes the write, and whose write may raise). -/
def finalize (cfg : Config) (out : Option String) (dirMode : Bool)
    (r : LoopState × Option Exn) : Outcome :=
  match r with
  | (st, some e) => .crashed e st.events st.results
  | (st, none) =>
    let evs := st.events ++ [Event.printResults st.results]
    match out with
    | some o =>
      if dirMode then .completed evs st.results
      else
        let target := SavePath.plain o
        let evs2 := evs ++ [Event.mkdirCall target,
          Event.writeCall target (.mapping st.results)]
        match cfg.writeErr target with
        | some m => .crashed (.osError m) evs2 st.results
        | none => .completed evs2 st.results
    | none => .completed evs st.results

/-- The whole process (`get.py:25`-`get.py:31` module-level config
checks, then `main`): exit 2 on missing config or an empty resolved
address list, exit 3 on a `PyMongoError` from the connection/ping, else
sample the clock once and run the loop and the epilogue. -/
def program (cfg : Config) (args : Args) : Outcome :=
  if ¬ truthy cfg.api_key then .exited 2
  else if ¬ truthy cfg.mongo_uri then .exited 2
  else if resolveAddresses cfg args = [] then .exited 2
  else if cfg.connectErr.isSome then .exited 3
  else
    finalize cfg (outArg args) (isOutDirOf cfg args)
      (runLoop cfg (outArg args) (isOutDirOf cfg args) (cfg.clock 0) 0
        (resolveAddresses cfg args) (loopInit (cfg.clock 0)))

/-- The fetch result an iteration at index `i` for address `a` sees. -/
def fetchResult (cfg : Config) (i : Nat) (a : String) : Except FetchErr TokenData :=
  get_token_details (cfg.fetch i a)

/-- The payload obtained at iteration `i` for `a` when the fetch
succeeds. -/
def successData (cfg : Config) (i : Nat) (a : String) : Option TokenData :=
  match fetchResult cfg i a with
  | .ok d => some d
  | .error _ => none

/-- The `ResultRecord` iteration `i` assigns to address `a`: the
caught-error record on fetch failure, else `okFalse` on insert failure,
else `okTrue`. -/
def recordOf (cfg : Config) (i : Nat) (a : String) : ResultRecord :=
  match fetchResult cfg i a with
  | .error e => recordOfFetchErr e
  | .ok _ =>
    match cfg.insertErr i with
    | some m => .okFalse m
    | none => .okTrue

/-- Characterization of the results dict a non-crashing loop builds:
one `dictInsert` of `recordOf` per address, in order. -/
def buildResults (cfg : Config) : Nat → List String →
    List (String × ResultRecord) → List (String × ResultRecord)
  | _, [], acc => acc
  | i, a :: rest, acc =>
    buildResults cfg (i + 1) rest (dictInsert a (recordOf cfg i a) acc)

/-- Characterization of the effect calls of one loop iteration. -/
def iterEvents (cfg : Config) (out : Option String) (dirMode : Bool)
    (runTs : Nat) (i : Nat) (a : String) : List Event :=
  match fetchResult cfg i a with
  | .error _ => [Event.fetchCall a]
  | .ok d =>
    let doc : MongoDoc := ⟨a, runTs, d⟩
    match out, dirMode with
    | some o, true =>
      let target := SavePath.inDir o (a ++ ".json")
      match cfg.writeErr target with
      | some _ =>
        [Event.fetchCall a, Event.insertCall doc, Event.mkdirCall target,
         Event.writeCall target (.payload d)]
      | none =>
        [Event.fetchCall a, Event.insertCall doc, Event.mkdirCall target,
         Event.writeCall target (.payload d), Event.sleepCall]
    | _, _ => [Event.fetchCall a, Event.insertCall doc, Event.sleepCall]

/-- Characterization of the effect calls of a non-crashing loop:
concatenation of the per-iteration calls, in address order. -/
def loopEvents (cfg : Config) (out : Option String) (dirMode : Bool)
    (runTs : Nat) : Nat → List String → List Event
  | _, [] => []
  | i, a :: rest =>
    iterEvents cfg out dirMode runTs i a ++
      loopEvents cfg out dirMode runTs (i + 1) rest

/-- The per-address files a directory-mode loop writes: one
`<address>.json` with the raw payload per successfully fetched address,
in order. -/
def perAddrWrites (cfg : Config) (o : String) :
    Nat → List String → List (SavePath × FileContent)
  | _, [] => []
  | i, a :: rest =>
    (match successData cfg i a with
     | some d => [(SavePath.inDir o (a ++ ".json"), FileContent.payload d)]
     | none => []) ++ perAddrWrites cfg o (i + 1) rest

/-- All file-write calls of a trace, in order. -/
def writesOf (evs : List Event) : List (SavePath × FileContent) :=
  evs.filterMap fun e =>
    match e with
    | .writeCall t c => some (t, c)
    | _ => none

/-- All directory-creation calls of a trace, in order. -/
def mkdirsOf (evs : List Event) : List SavePath :=
  evs.filterMap fun e =>
    match e with
    | .mkdirCall t => some t
    | _ => none

/-- All documents whose insertion was attempted, in order. -/
def insertsOf (evs : List Event) : List MongoDoc :=
  evs.filterMap fun e =>
    match e with
    | .insertCall d => some d
    | _ => none

/-- All wall-clock samples taken, in order. -/
def clockSamplesOf (evs : List Event) : List Nat :=
  evs.filterMap fun e =>
    match e with
    | .sampleClock t => some t
    | _ => none

/-- The number of sleep calls of a trace. -/
def sleepsOf (evs : List Event) : Nat :=
  (evs.filter fun e =>
    match e with
    | .sleepCall => true
    | _ => false).length

/-- The effect trace of an outcome, when the process got past its
startup checks. -/
def eventsOf : Outcome → Option (List Event)
  | .exited _ => none
  | .crashed _ evs _ => some evs
  | .completed evs _ => some evs

/-- The uncaught exception one loop iteration raises, if any: an
`OSError` from the per-address file write, possible only in directory
mode after a successful fetch. -/
def iterCrash (cfg : Config) (out : Option String) (dirMode : Bool)
    (i : Nat) (a : String) : Option String :=
  match fetchResult cfg i a, out, dirMode with
  | .ok _, some o, true => cfg.writeErr (SavePath.inDir o (a ++ ".json"))
  | _, _, _ => none

/-- The index of the last occurrence of `a` in a list, if present. -/
def lastIdxOf (a : String) : List String → Option Nat
  | [] => none
  | b :: rest =>
    match lastIdxOf a rest with
    | some j => some (j + 1)
    | none => if b = a then some 0 else none

/-- Characterization of the effect calls of the epilogue of a
non-crashing run: print the summary, then in combined-file mode create
the parent directory and write the mapping. -/
def finalEvents (out : Option String) (dirMode : Bool)
    (res : List (String × ResultRecord)) : List Event :=
  match out with
  | some o =>
    if dirMode then [Event.printResults res]
    else
      [Event.printResults res, Event.mkdirCall (SavePath.plain o),
       Event.writeCall (SavePath.plain o) (FileContent.mapping res)]
  | none => [Event.printResults res]

/-- A concrete configuration for witnesses: valid required config, no
addresses from any source, healthy database, every fetch answered 404,
inserts and writes succeed. -/
def cfg404 : Config where
  api_key := some "k"
  mongo_uri := some "mongodb://h"
  envVars := fun _ => none
  envFile := none
  outExists := fun _ => false
  outIsDir := fun _ => false
  connectErr := none
  clock := fun _ => 7
  fetch := fun _ _ => .resp 404 "not found" "payload404"
  insertErr := fun _ => none
  writeErr := fun _ => none

/-- Like `cfg404` but every fetch succeeds with status 200. -/
def cfgOk : Config :=
  { cfg404 with fetch := fun _ _ => .resp 200 "ok" "payload200" }

/-- Like `cfgOk` but every Mongo insert fails. -/
def cfgMongoFail : Config :=
  { cfgOk with insertErr := fun _ => some "insert refused" }

/-- Like `cfgOk` but every filesystem write raises an `OSError`. -/
def cfgWriteFail : Config :=
  { cfgOk with writeErr := fun _ => some "disk full" }

/-- Command-line arguments with no options supplied. -/
def argsNone : Args := ⟨none, none⟩

/-- Arguments selecting one address and a directory-shaped output
path. -/
def argsDirOut : Args := ⟨some "a1", some "outdir"⟩

/-- Arguments selecting one address and a file-shaped output path. -/
def argsFileOut : Args := ⟨some "a1", some "out.json"⟩

/-- Arguments whose address override trims to nothing. -/
def argsBlank : Args := ⟨some " ", none⟩

/-- Like `cfg404` but with the API key missing. -/
def cfgNoKey : Config := { cfg404 with api_key := none }

/-- Like `cfg404` but with the database URI missing. -/
def cfgNoUri : Config := { cfg404 with mongo_uri := none }

/-- Like `cfg404` but with the database connection/ping failing. -/
def cfgConnFail : Config := { cfg404 with connectErr := some "no server" }

/-- The results mapping of a `cfg404` run over the fallback address. -/
def res404 : List (String × ResultRecord) :=
  [(DEFAULT_ADDRESS, ResultRecord.httpErrRec (strHTTPError 404) (some 404))]

/-- The trace of a `cfg404` run over the fallback address (identical
with and without a directory output path, since the failed fetch writes
nothing). -/
def evs404 : List Event :=
  [Event.sampleClock 7, Event.fetchCall DEFAULT_ADDRESS,
   Event.printResults res404]

/-- The results mapping of a successful `cfgOk` run over `a1`. -/
def resOkA1 : List (String × ResultRecord) :=
  [("a1", ResultRecord.okTrue)]

/-- The trace of a `cfgOk` run over `a1` in directory-output mode. -/
def evsOkDir : List Event :=
  [Event.sampleClock 7, Event.fetchCall "a1",
   Event.insertCall ⟨"a1", 7, "payload200"⟩,
   Event.mkdirCall (SavePath.inDir "outdir" "a1.json"),
   Event.writeCall (SavePath.inDir "outdir" "a1.json")
     (FileContent.payload "payload200"),
   Event.sleepCall, Event.printResults resOkA1]

/-- The results mapping of a `cfgMongoFail` run over `a1`. -/
def resMongoFailA1 : List (String × ResultRecord) :=
  [("a1", ResultRecord.okFalse "insert refused")]

/-- The trace of a `cfgMongoFail` run over `a1` with combined-file
output. -/
def evsFileOut : List Event :=
  [Event.sampleClock 7, Event.fetchCall "a1",
   Event.insertCall ⟨"a1", 7, "payload200"⟩, Event.sleepCall,
   Event.printResults resMongoFailA1,
   Event.mkdirCall (SavePath.plain "out.json"),
   Event.writeCall (SavePath.plain "out.json")
     (FileContent.mapping resMongoFailA1)]

theorem raisesForStatus_eq (s : Nat) :
    raisesForStatus s = decide (400 ≤ s ∧ s < 600) := by
  unfold raisesForStatus
  by_cases h : 400 ≤ s ∧ s < 600
  · simp only [decide_eq_true h, Bool.or_eq_true, decide_eq_true_eq]
    omega
  · simp only [decide_eq_false h, Bool.or_eq_false_iff, decide_eq_false_iff_not]
    omega

theorem get_token_details_http (s : Nat) (t : String) (d : TokenData)
    (h : raisesForStatus s = true) :
    get_token_details (FetchOutcome.resp s t d) =
      Except.error (FetchErr.httpError s t) := by
  simp [get_token_details, h]

theorem get_token_details_ok (s : Nat) (t : String) (d : TokenData)
    (h : raisesForStatus s = false) :
    get_token_details (FetchOutcome.resp s t d) = Except.ok d := by
  simp [get_token_details, h]

theorem dictInsert_same (k : String) (v1 v2 : ResultRecord)
    (l : List (String × ResultRecord)) :
    dictInsert k v2 (dictInsert k v1 l) = dictInsert k v2 l := by
  induction l with
  | nil => simp [dictInsert]
  | cons p rest ih =>
    obtain ⟨k', v'⟩ := p
    by_cases h : k' = k
    · simp [dictInsert, h]
    · simp [dictInsert, h, ih]

theorem runLoop_cons_char (cfg : Config) (out : Option String) (dm : Bool)
    (ts i : Nat) (a : String) (rest : List String) (st : LoopState) :
    runLoop cfg out dm ts i (a :: rest) st =
      match iterCrash cfg out dm i a with
      | some m =>
        (⟨dictInsert a (recordOf cfg i a) st.results,
          st.events ++ iterEvents cfg out dm ts i a⟩, some (Exn.osError m))
      | none =>
        runLoop cfg out dm ts (i + 1) rest
          ⟨dictInsert a (recordOf cfg i a) st.results,
           st.events ++ iterEvents cfg out dm ts i a⟩ := by
  cases hf : get_token_details (cfg.fetch i a) with
  | error e =>
    have hfr : fetchResult cfg i a = Except.error e := hf
    simp only [iterCrash, hfr, runLoop, iterBody, hf, handleExn, recordOf,
      iterEvents, recordOfFetchErr]
  | ok d =>
    have hfr : fetchResult cfg i a = Except.ok d := hf
    rcases out with _ | o
    · rcases hm : cfg.insertErr i with _ | m <;>
        simp only [iterCrash, hfr, runLoop, iterBody, hf, hm, recordOf,
          iterEvents, dictInsert_same]
    · cases dm
      · rcases hm : cfg.insertErr i with _ | m <;>
          simp only [iterCrash, hfr, runLoop, iterBody, hf, hm, recordOf,
            iterEvents, dictInsert_same]
      · rcases hw : cfg.writeErr (SavePath.inDir o (a ++ ".json")) with _ | m <;>
          rcases hm : cfg.insertErr i with _ | m2 <;>
            simp only [iterCrash, hfr, runLoop, iterBody, hf, hm, hw, recordOf,
              iterEvents, dictInsert_same, handleExn]

theorem runLoop_ok_char (cfg : Config) (out : Option String) (dm : Bool)
    (ts : Nat) :
    ∀ (addrs : List String) (i : Nat) (st st' : LoopState),
      runLoop cfg out dm ts i addrs st = (st', none) →
      st'.results = buildResults cfg i addrs st.results ∧
      st'.events = st.events ++ loopEvents cfg out dm ts i addrs := by
  intro addrs
  induction addrs with
  | nil =>
    intro i st st' h
    simp only [runLoop, Prod.mk.injEq] at h
    rcases h with ⟨h1, -⟩
    subst h1
    simp [buildResults, loopEvents]
  | cons a rest ih =>
    intro i st st' h
    rw [runLoop_cons_char] at h
    rcases hcr : iterCrash cfg out dm i a with _ | m
    · rw [hcr] at h
      simp only at h
      obtain ⟨h1, h2⟩ := ih (i + 1) _ st' h
      refine ⟨?_, ?_⟩
      · rw [buildResults]
        exact h1
      · rw [loopEvents, h2, List.append_assoc]
    · rw [hcr] at h
      simp at h

theorem clockSamplesOf_append (l1 l2 : List Event) :
    clockSamplesOf (l1 ++ l2) = clockSamplesOf l1 ++ clockSamplesOf l2 := by
  simp [clockSamplesOf]

theorem insertsOf_append (l1 l2 : List Event) :
    insertsOf (l1 ++ l2) = insertsOf l1 ++ insertsOf l2 := by
  simp [insertsOf]

theorem writesOf_append (l1 l2 : List Event) :
    writesOf (l1 ++ l2) = writesOf l1 ++ writesOf l2 := by
  simp [writesOf]

theorem mkdirsOf_append (l1 l2 : List Event) :
    mkdirsOf (l1 ++ l2) = mkdirsOf l1 ++ mkdirsOf l2 := by
  simp [mkdirsOf]

theorem clockSamplesOf_iterEvents (cfg : Config) (out : Option String)
    (dm : Bool) (ts i : Nat) (a : String) :
    clockSamplesOf (iterEvents cfg out dm ts i a) = [] := by
  unfold iterEvents
  cases hf : fetchResult cfg i a with
  | error e => rfl
  | ok dd =>
    rcases out with _ | o
    · rfl
    · cases dm
      · rfl
      · rcases hw : cfg.writeErr (SavePath.inDir o (a ++ ".json")) with _ | m <;>
          simp [hw, clockSamplesOf]

theorem insertsOf_iterEvents (cfg : Config) (out : Option String)
    (dm : Bool) (ts i : Nat) (a : String) :
    ∀ d ∈ insertsOf (iterEvents cfg out dm ts i a), d.fetched_at = ts := by
  unfold iterEvents
  cases hf : fetchResult cfg i a with
  | error e =>
    intro d hd
    simp [insertsOf] at hd
  | ok dd =>
    rcases out with _ | o
    · intro d hd
      simp [insertsOf] at hd
      simp [hd]
    · cases dm
      · intro d hd
        simp [insertsOf] at hd
        simp [hd]
      · rcases hw : cfg.writeErr (SavePath.inDir o (a ++ ".json")) with _ | m <;>
          · intro d hd
            simp [insertsOf, hw] at hd
            simp [hd]

theorem runLoop_any_char (cfg : Config) (out : Option String) (dm : Bool)
    (ts : Nat) :
    ∀ (addrs : List String) (i : Nat) (st : LoopState), ∃ ext,
      (runLoop cfg out dm ts i addrs st).1.events = st.events ++ ext ∧
      clockSamplesOf ext = [] ∧
      ∀ d ∈ insertsOf ext, d.fetched_at = ts := by
  intro addrs
  induction addrs with
  | nil =>
    intro i st
    exact ⟨[], by simp [runLoop], rfl, by simp [insertsOf]⟩
  | cons a rest ih =>
    intro i st
    rw [runLoop_cons_char]
    rcases hcr : iterCrash cfg out dm i a with _ | m
    · simp only [hcr]
      obtain ⟨ext, h1, h2, h3⟩ :=
        ih (i + 1) ⟨dictInsert a (recordOf cfg i a) st.results,
          st.events ++ iterEvents cfg out dm ts i a⟩
      refine ⟨iterEvents cfg out dm ts i a ++ ext, ?_, ?_, ?_⟩
      · rw [h1]
        simp [List.append_assoc]
      · simp [clockSamplesOf_append, clockSamplesOf_iterEvents, h2]
      · intro d hd
        rw [insertsOf_append, List.mem_append] at hd
        rcases hd with hd | hd
        · exact insertsOf_iterEvents cfg out dm ts i a d hd
        · exact h3 d hd
    · simp only [hcr]
      exact ⟨iterEvents cfg out dm ts i a, rfl,
        clockSamplesOf_iterEvents cfg out dm ts i a,
        insertsOf_iterEvents cfg out dm ts i a⟩

theorem mem_keys_dictInsert (k a : String) (v : ResultRecord)
    (l : List (String × ResultRecord)) :
    a ∈ (dictInsert k v l).map Prod.fst ↔ a = k ∨ a ∈ l.map Prod.fst := by
  induction l with
  | nil => simp [dictInsert]
  | cons p rest ih =>
    obtain ⟨k', v'⟩ := p
    by_cases hk : k' = k
    · subst hk
      simp [dictInsert]
    · simp [dictInsert, hk, ih]
      tauto

theorem nodup_keys_dictInsert (k : String) (v : ResultRecord)
    (l : List (String × ResultRecord)) (h : (l.map Prod.fst).Nodup) :
    ((dictInsert k v l).map Prod.fst).Nodup := by
  induction l with
  | nil => simp [dictInsert]
  | cons p rest ih =>
    obtain ⟨k', v'⟩ := p
    simp only [List.map_cons, List.nodup_cons] at h
    by_cases hk : k' = k
    · subst hk
      simpa [dictInsert] using h
    · simp only [dictInsert, if_neg hk, List.map_cons, List.nodup_cons]
      refine ⟨?_, ih h.2⟩
      rw [mem_keys_dictInsert]
      rintro (rfl | hmem)
      · exact hk rfl
      · exact h.1 hmem

theorem lookup_dictInsert (k a : String) (v : ResultRecord)
    (l : List (String × ResultRecord)) :
    List.lookup a (dictInsert k v l) =
      if a = k then some v else List.lookup a l := by
  induction l with
  | nil =>
    by_cases ha : a = k
    · subst ha
      simp [dictInsert, List.lookup]
    · have hb : (a == k) = false := by simp [ha]
      simp [dictInsert, List.lookup, ha, hb]
  | cons p rest ih =>
    obtain ⟨k', v'⟩ := p
    by_cases hk : k' = k
    · subst hk
      by_cases ha : a = k'
      · subst ha
        simp [dictInsert, List.lookup]
      · have hb : (a == k') = false := by simp [ha]
        simp [dictInsert, List.lookup, ha, hb]
    · by_cases ha : a = k'
      · subst ha
        simp [dictInsert, if_neg hk, List.lookup, hk]
      · have hb : (a == k') = false := by simp [ha]
        simp [dictInsert, if_neg hk, List.lookup, hb, ih]

theorem mem_keys_buildResults (cfg : Config) :
    ∀ (addrs : List String) (i : Nat) (acc : List (String × ResultRecord))
      (a : String),
      a ∈ (buildResults cfg i addrs acc).map Prod.fst ↔
        a ∈ addrs ∨ a ∈ acc.map Prod.fst := by
  intro addrs
  induction addrs with
  | nil =>
    intro i acc a
    simp [buildResults]
  | cons b rest ih =>
    intro i acc a
    simp only [buildResults]
    rw [ih, mem_keys_dictInsert]
    simp [List.mem_cons]
    tauto

theorem nodup_keys_buildResults (cfg : Config) :
    ∀ (addrs : List String) (i : Nat) (acc : List (String × ResultRecord)),
      (acc.map Prod.fst).Nodup →
      ((buildResults cfg i addrs acc).map Prod.fst).Nodup := by
  intro addrs
  induction addrs with
  | nil =>
    intro i acc h
    simpa [buildResults] using h
  | cons b rest ih =>
    intro i acc h
    simp only [buildResults]
    exact ih (i + 1) _ (nodup_keys_dictInsert b (recordOf cfg i b) acc h)

theorem lastIdxOf_none_not_mem (a : String) :
    ∀ l, lastIdxOf a l = none → a ∉ l := by
  intro l
  induction l with
  | nil => simp
  | cons b rest ih =>
    intro h
    simp only [lastIdxOf] at h
    rcases hj : lastIdxOf a rest with _ | j
    · rw [hj] at h
      by_cases hb : b = a
      · simp [hb] at h
      · simp only [List.mem_cons, not_or]
        exact ⟨fun he => hb he.symm, ih hj⟩
    · rw [hj] at h
      simp at h

theorem lookup_buildResults_not_mem (cfg : Config) :
    ∀ (addrs : List String) (i : Nat) (acc : List (String × ResultRecord))
      (a : String), a ∉ addrs →
      List.lookup a (buildResults cfg i addrs acc) = List.lookup a acc := by
  intro addrs
  induction addrs with
  | nil =>
    intro i acc a _
    rfl
  | cons b rest ih =>
    intro i acc a h
    simp only [List.mem_cons, not_or] at h
    simp only [buildResults]
    rw [ih (i + 1) _ a h.2, lookup_dictInsert, if_neg h.1]

theorem lookup_buildResults_last (cfg : Config) :
    ∀ (addrs : List String) (i : Nat) (acc : List (String × ResultRecord))
      (a : String) (j : Nat), lastIdxOf a addrs = some j →
      List.lookup a (buildResults cfg i addrs acc) =
        some (recordOf cfg (i + j) a) := by
  intro addrs
  induction addrs with
  | nil =>
    intro i acc a j h
    simp [lastIdxOf] at h
  | cons b rest ih =>
    intro i acc a j h
    simp only [lastIdxOf] at h
    rcases hj : lastIdxOf a rest with _ | j'
    · rw [hj] at h
      by_cases hb : b = a
      · rw [if_pos hb] at h
        have hj0 : j = 0 := by
          cases h
          rfl
        subst hj0
        have hnm : a ∉ rest := lastIdxOf_none_not_mem a rest hj
        simp only [buildResults]
        rw [lookup_buildResults_not_mem cfg rest (i + 1) _ a hnm,
          lookup_dictInsert, if_pos hb.symm, hb]
        rfl
      · rw [if_neg hb] at h
        cases h
    · rw [hj] at h
      have hjj : j = j' + 1 := by
        cases h
        rfl
      subst hjj
      simp only [buildResults]
      rw [ih (i + 1) _ a j' hj]
      have harith : i + 1 + j' = i + (j' + 1) := by omega
      rw [harith]

theorem clockSamplesOf_finalEvents (out : Option String) (dm : Bool)
    (res : List (String × ResultRecord)) :
    clockSamplesOf (finalEvents out dm res) = [] := by
  rcases out with _ | o
  · rfl
  · cases dm <;> rfl

theorem insertsOf_finalEvents (out : Option String) (dm : Bool)
    (res : List (String × ResultRecord)) :
    insertsOf (finalEvents out dm res) = [] := by
  rcases out with _ | o
  · rfl
  · cases dm <;> rfl

theorem writesOf_iterEvents_dir (cfg : Config) (o : String) (ts i : Nat)
    (a : String) :
    writesOf (iterEvents cfg (some o) true ts i a) =
      (match successData cfg i a with
       | some d => [(SavePath.inDir o (a ++ ".json"), FileContent.payload d)]
       | none => []) := by
  unfold iterEvents successData
  cases hf : fetchResult cfg i a with
  | error e => rfl
  | ok d =>
    rcases hw : cfg.writeErr (SavePath.inDir o (a ++ ".json")) with _ | m <;>
      simp [hw, writesOf]

theorem writesOf_loopEvents_dir (cfg : Config) (o : String) (ts : Nat) :
    ∀ (addrs : List String) (i : Nat),
      writesOf (loopEvents cfg (some o) true ts i addrs) =
        perAddrWrites cfg o i addrs := by
  intro addrs
  induction addrs with
  | nil => intro i; rfl
  | cons a rest ih =>
    intro i
    simp only [loopEvents, perAddrWrites, writesOf_append, ih,
      writesOf_iterEvents_dir]

theorem mkdirsOf_iterEvents_dir (cfg : Config) (o : String) (ts i : Nat)
    (a : String) :
    mkdirsOf (iterEvents cfg (some o) true ts i a) =
      (writesOf (iterEvents cfg (some o) true ts i a)).map Prod.fst := by
  unfold iterEvents
  cases hf : fetchResult cfg i a with
  | error e => rfl
  | ok d =>
    rcases hw : cfg.writeErr (SavePath.inDir o (a ++ ".json")) with _ | m <;>
      simp [hw, mkdirsOf, writesOf]

theorem mkdirsOf_loopEvents_dir (cfg : Config) (o : String) (ts : Nat) :
    ∀ (addrs : List String) (i : Nat),
      mkdirsOf (loopEvents cfg (some o) true ts i addrs) =
        (writesOf (loopEvents cfg (some o) true ts i addrs)).map Prod.fst := by
  intro addrs
  induction addrs with
  | nil => intro i; rfl
  | cons a rest ih =>
    intro i
    simp only [loopEvents, mkdirsOf_append, writesOf_append, List.map_append,
      ih, mkdirsOf_iterEvents_dir]

theorem writesOf_iterEvents_noDir (cfg : Config) (out : Option String)
    (dm : Bool) (ts i : Nat) (a : String) (hnd : out = none ∨ dm = false) :
    writesOf (iterEvents cfg out dm ts i a) = [] := by
  unfold iterEvents
  cases hf : fetchResult cfg i a with
  | error e => rfl
  | ok d =>
    rcases hnd with rfl | rfl
    · rfl
    · cases out with
      | none => rfl
      | some o => rfl

theorem writesOf_loopEvents_noDir (cfg : Config) (out : Option String)
    (dm : Bool) (ts : Nat) (hnd : out = none ∨ dm = false) :
    ∀ (addrs : List String) (i : Nat),
      writesOf (loopEvents cfg out dm ts i addrs) = [] := by
  intro addrs
  induction addrs with
  | nil => intro i; rfl
  | cons a rest ih =>
    intro i
    simp [loopEvents, writesOf_append, ih,
      writesOf_iterEvents_noDir cfg out dm ts i a hnd]

theorem perAddrWrites_nil (cfg : Config) (o : String) :
    ∀ (addrs : List String) (i : Nat),
      (∀ p ∈ List.enumFrom i addrs, successData cfg p.1 p.2 = none) →
      perAddrWrites cfg o i addrs = [] := by
  intro addrs
  induction addrs with
  | nil => intro i _; rfl
  | cons a rest ih =>
    intro i h
    have h0 : successData cfg i a = none :=
      h (i, a) (by simp [List.enumFrom])
    have hr : perAddrWrites cfg o (i + 1) rest = [] :=
      ih (i + 1) (fun p hp => h p (by simp [List.enumFrom, hp]))
    simp [perAddrWrites, h0, hr]

theorem program_completed_char (cfg : Config) (args : Args)
    (evs : List Event) (res : List (String × ResultRecord))
    (h : program cfg args = Outcome.completed evs res) :
    ∃ st, runLoop cfg (outArg args) (isOutDirOf cfg args) (cfg.clock 0) 0
        (resolveAddresses cfg args) (loopInit (cfg.clock 0)) = (st, none) ∧
      res = st.results ∧
      evs = st.events ++
        finalEvents (outArg args) (isOutDirOf cfg args) st.results := by
  unfold program at h
  split at h
  · simp at h
  split at h
  · simp at h
  split at h
  · simp at h
  split at h
  · simp at h
  rcases hr : runLoop cfg (outArg args) (isOutDirOf cfg args) (cfg.clock 0) 0
      (resolveAddresses cfg args) (loopInit (cfg.clock 0)) with ⟨st, e?⟩
  rw [hr] at h
  rcases e? with _ | e
  · refine ⟨st, rfl, ?_⟩
    unfold finalize at h
    rcases ho : outArg args with _ | o
    · rw [ho] at h
      simp only [Outcome.completed.injEq] at h
      refine ⟨h.2.symm, ?_⟩
      rw [← h.1]
      rfl
    · rw [ho] at h
      cases hdm : isOutDirOf cfg args
      · rw [hdm] at h
        simp only [Bool.false_eq_true, if_false] at h
        rcases hw : cfg.writeErr (SavePath.plain o) with _ | m
        · rw [hw] at h
          simp only [Outcome.completed.injEq] at h
          refine ⟨h.2.symm, ?_⟩
          rw [← h.1]
          simp [finalEvents]
        · rw [hw] at h
          simp at h
      · rw [hdm] at h
        simp only [if_true] at h
        simp only [Outcome.completed.injEq] at h
        refine ⟨h.2.symm, ?_⟩
        rw [← h.1]
        rfl
  · simp [finalize] at h

theorem program_events_char (cfg : Config) (args : Args) (evs : List Event)
    (h : eventsOf (program cfg args) = some evs) :
    ∃ st e?, runLoop cfg (outArg args) (isOutDirOf cfg args) (cfg.clock 0) 0
        (resolveAddresses cfg args) (loopInit (cfg.clock 0)) = (st, e?) ∧
      (evs = st.events ∨
       evs = st.events ++
         finalEvents (outArg args) (isOutDirOf cfg args) st.results) := by
  unfold program at h
  split at h
  · simp [eventsOf] at h
  split at h
  · simp [eventsOf] at h
  split at h
  · simp [eventsOf] at h
  split at h
  · simp [eventsOf] at h
  rcases hr : runLoop cfg (outArg args) (isOutDirOf cfg args) (cfg.clock 0) 0
      (resolveAddresses cfg args) (loopInit (cfg.clock 0)) with ⟨st, e?⟩
  rw [hr] at h
  rcases e? with _ | e
  · refine ⟨st, none, rfl, Or.inr ?_⟩
    unfold finalize at h
    rcases ho : outArg args with _ | o
    · rw [ho] at h
      simp only [eventsOf, Option.some.injEq] at h
      rw [← h]
      rfl
    · rw [ho] at h
      cases hdm : isOutDirOf cfg args
      · rw [hdm] at h
        simp only [Bool.false_eq_true, if_false] at h
        rcases hw : cfg.writeErr (SavePath.plain o) with _ | m
        · rw [hw] at h
          simp only [eventsOf, Option.some.injEq] at h
          rw [← h]
          simp [finalEvents]
        · rw [hw] at h
          simp only [eventsOf, Option.some.injEq] at h
          rw [← h]
          simp [finalEvents]
      · rw [hdm] at h
        simp only [if_true, eventsOf, Option.some.injEq] at h
        rw [← h]
        rfl
  · refine ⟨st, some e, rfl, Or.inl ?_⟩
    simp only [finalize, eventsOf, Option.some.injEq] at h
    exact h.symm

/-- C1: the detail fetcher returns the parsed JSON body for HTTP 2xx
and is claimed to raise a distinguished HTTP-status failure for every
non-2xx status.  Counterexample: a surfaced status 300 (not a 2xx) is
passed through by `raise_for_status` (which only raises for 400-599),
so `get_token_details` returns the parsed body instead of raising. -/
theorem c1_counterexample :
    ¬ (200 ≤ 300 ∧ 300 < 300) ∧
      get_token_details (FetchOutcome.resp 300 "body" "payload") =
        Except.ok "payload" :=
  ⟨by decide, rfl⟩

/-- C1 (amended): the detail fetcher returns the parsed JSON body
whenever the surfaced status is outside 400-599 (in particular for
every 2xx), raises the distinguished HTTP-status failure carrying the
status code and the response body text exactly for statuses 400-599,
and raises the distinct transport-level failure for
connection/timeout/DNS errors. -/
theorem c1_fetch_amended (s : Nat) (t : String) (d : TokenData) (m : String) :
    get_token_details (FetchOutcome.resp s t d) =
      (if 400 ≤ s ∧ s < 600 then Except.error (FetchErr.httpError s t)
       else Except.ok d) ∧
    get_token_details (FetchOutcome.transportErr m) =
      Except.error (FetchErr.requestException m) := by
  refine ⟨?_, rfl⟩
  by_cases h : 400 ≤ s ∧ s < 600
  · rw [get_token_details_http s t d (by rw [raisesForStatus_eq]; exact decide_eq_true h),
      if_pos h]
  · rw [get_token_details_ok s t d (by rw [raisesForStatus_eq]; exact decide_eq_false h),
      if_neg h]

/-- C2: an address whose fetch fails with an HTTP error gets the record
`{"error": .., "status_code": ..}` (status-code key present), no insert
attempt, no per-address file, no mkdir, no sleep, and the loop
continues with the remaining addresses. -/
theorem c2_http_failure_iteration (cfg : Config) (out : Option String)
    (dirMode : Bool) (ts i : Nat) (addr : String) (rest : List String)
    (st : LoopState) (s : Nat) (t : String) (d : TokenData)
    (hf : cfg.fetch i addr = FetchOutcome.resp s t d)
    (hs : raisesForStatus s = true) :
    runLoop cfg out dirMode ts i (addr :: rest) st =
      runLoop cfg out dirMode ts (i + 1) rest
        ⟨dictInsert addr
           (ResultRecord.httpErrRec (strHTTPError s) (some s)) st.results,
         st.events ++ [Event.fetchCall addr]⟩ := by
  simp only [runLoop, iterBody, hf, get_token_details_http s t d hs,
    handleExn, recordOfFetchErr]

/-- C2 witness: a concrete 404 iteration. -/
theorem c2_http_failure_witness :
    cfg404.fetch 0 "a" = FetchOutcome.resp 404 "not found" "payload404" ∧
    raisesForStatus 404 = true ∧
    runLoop cfg404 none false 0 0 ["a", "b"] ⟨[], []⟩ =
      runLoop cfg404 none false 0 1 ["b"]
        ⟨[("a", ResultRecord.httpErrRec (strHTTPError 404) (some 404))],
         [Event.fetchCall "a"]⟩ :=
  ⟨rfl, by decide,
    c2_http_failure_iteration cfg404 none false 0 0 "a" ["b"] ⟨[], []⟩
      404 "not found" "payload404" rfl (by decide)⟩

/-- C3: an address whose fetch succeeds but whose insert fails gets the
record `{"ok": False, "mongo_error": ..}`, the per-address file is
still created and written when directory output was requested, and the
loop continues with the remaining addresses. -/
theorem c3_insert_failure_iteration (cfg : Config) (o : String) (ts i : Nat)
    (addr : String) (rest : List String) (st : LoopState)
    (s : Nat) (t : String) (d : TokenData) (m : String)
    (hf : cfg.fetch i addr = FetchOutcome.resp s t d)
    (hs : raisesForStatus s = false)
    (hm : cfg.insertErr i = some m)
    (hw : cfg.writeErr (SavePath.inDir o (addr ++ ".json")) = none) :
    runLoop cfg (some o) true ts i (addr :: rest) st =
      runLoop cfg (some o) true ts (i + 1) rest
        ⟨dictInsert addr (ResultRecord.okFalse m) st.results,
         st.events ++
           [Event.fetchCall addr, Event.insertCall ⟨addr, ts, d⟩,
            Event.mkdirCall (SavePath.inDir o (addr ++ ".json")),
            Event.writeCall (SavePath.inDir o (addr ++ ".json"))
              (FileContent.payload d),
            Event.sleepCall]⟩ := by
  simp only [runLoop, iterBody, hf, get_token_details_ok s t d hs, hm, hw,
    dictInsert_same]

/-- C3 witness: a concrete failing-insert iteration in directory
mode. -/
theorem c3_insert_failure_witness :
    cfgMongoFail.fetch 0 "a" = FetchOutcome.resp 200 "ok" "payload200" ∧
    raisesForStatus 200 = false ∧
    cfgMongoFail.insertErr 0 = some "insert refused" ∧
    cfgMongoFail.writeErr (SavePath.inDir "outdir" ("a" ++ ".json")) = none ∧
    runLoop cfgMongoFail (some "outdir") true 7 0 ["a", "b"] ⟨[], []⟩ =
      runLoop cfgMongoFail (some "outdir") true 7 1 ["b"]
        ⟨[("a", ResultRecord.okFalse "insert refused")],
         [Event.fetchCall "a", Event.insertCall ⟨"a", 7, "payload200"⟩,
          Event.mkdirCall (SavePath.inDir "outdir" ("a" ++ ".json")),
          Event.writeCall (SavePath.inDir "outdir" ("a" ++ ".json"))
            (FileContent.payload "payload200"),
          Event.sleepCall]⟩ :=
  ⟨rfl, by decide, rfl, rfl,
    c3_insert_failure_iteration cfgMongoFail "outdir" 7 0 "a" ["b"] ⟨[], []⟩
      200 "ok" "payload200" "insert refused" rfl (by decide) rfl rfl⟩

/-- C9: only the two request-level exception kinds are caught by the
loop's handlers; an `OSError` raised by the per-address file write is
not handled, so the loop returns immediately with that exception: the
remaining addresses are never visited (no records for them), and the
crash propagates through the epilogue without printing the summary. -/
theorem c9_uncaught_exceptions :
    (∀ a s t res,
       handleExn a (Exn.fetchErr (FetchErr.httpError s t)) res =
         some (dictInsert a
           (ResultRecord.httpErrRec (strHTTPError s) (some s)) res)) ∧
    (∀ a m res,
       handleExn a (Exn.fetchErr (FetchErr.requestException m)) res =
         some (dictInsert a (ResultRecord.transportErrRec m) res)) ∧
    (∀ a m res, handleExn a (Exn.osError m) res = none) ∧
    (∀ (cfg : Config) (o : String) (ts i : Nat) (addr : String)
       (rest : List String) (st : LoopState) (s : Nat) (t : String)
       (d : TokenData) (m : String),
       cfg.fetch i addr = FetchOutcome.resp s t d →
       raisesForStatus s = false →
       cfg.writeErr (SavePath.inDir o (addr ++ ".json")) = some m →
       runLoop cfg (some o) true ts i (addr :: rest) st =
         (⟨(match cfg.insertErr i with
            | some me => dictInsert addr (ResultRecord.okFalse me) st.results
            | none => dictInsert addr ResultRecord.okTrue st.results),
           st.events ++
             [Event.fetchCall addr, Event.insertCall ⟨addr, ts, d⟩,
              Event.mkdirCall (SavePath.inDir o (addr ++ ".json")),
              Event.writeCall (SavePath.inDir o (addr ++ ".json"))
                (FileContent.payload d)]⟩,
          some (Exn.osError m))) ∧
    (∀ (cfg : Config) (out : Option String) (dm : Bool) (st : LoopState)
       (e : Exn),
       finalize cfg out dm (st, some e) =
         Outcome.crashed e st.events st.results) := by
  refine ⟨fun a s t res => rfl, fun a m res => rfl, fun a m res => rfl,
    ?_, fun cfg out dm st e => rfl⟩
  intro cfg o ts i addr rest st s t d m hf hs hw
  rcases hm : cfg.insertErr i with _ | me
  · simp only [runLoop, iterBody, hf, get_token_details_ok s t d hs, hm, hw,
      handleExn]
  · simp only [runLoop, iterBody, hf, get_token_details_ok s t d hs, hm, hw,
      handleExn, dictInsert_same]

/-- C9 witness: a concrete run in which the write for the first address
raises, the loop aborts with the `OSError`, and the second address gets
no record. -/
theorem c9_uncaught_witness :
    cfgWriteFail.fetch 0 "a" = FetchOutcome.resp 200 "ok" "payload200" ∧
    raisesForStatus 200 = false ∧
    cfgWriteFail.writeErr (SavePath.inDir "outdir" ("a" ++ ".json")) =
      some "disk full" ∧
    runLoop cfgWriteFail (some "outdir") true 7 0 ["a", "b"] ⟨[], []⟩ =
      (⟨[("a", ResultRecord.okTrue)],
        [Event.fetchCall "a", Event.insertCall ⟨"a", 7, "payload200"⟩,
         Event.mkdirCall (SavePath.inDir "outdir" ("a" ++ ".json")),
         Event.writeCall (SavePath.inDir "outdir" ("a" ++ ".json"))
           (FileContent.payload "payload200")]⟩,
       some (Exn.osError "disk full")) :=
  ⟨rfl, by decide, rfl,
    (c9_uncaught_exceptions.2.2.2.1 cfgWriteFail "outdir" 7 0 "a" ["b"]
      ⟨[], []⟩ 200 "ok" "payload200" "disk full" rfl (by decide) rfl)⟩

/-- C4: in a completed run, the final results mapping is the ordered
dict-fold of one record per address (so a later duplicate occurrence
overwrites the record of an earlier identical key), its keys are free
of duplicates, a key is present exactly when the address occurs in the
resolved list, and the value at each key is the record computed at the
last occurrence of that address. -/
theorem c4_one_record_per_address (cfg : Config) (args : Args)
    (evs : List Event) (res : List (String × ResultRecord))
    (h : program cfg args = Outcome.completed evs res) :
    res = buildResults cfg 0 (resolveAddresses cfg args) [] ∧
    (res.map Prod.fst).Nodup ∧
    (∀ a, a ∈ res.map Prod.fst ↔ a ∈ resolveAddresses cfg args) ∧
    (∀ a j, lastIdxOf a (resolveAddresses cfg args) = some j →
      List.lookup a res = some (recordOf cfg j a)) := by
  obtain ⟨st, hr, hres, -⟩ := program_completed_char cfg args evs res h
  obtain ⟨h1, -⟩ := runLoop_ok_char cfg (outArg args) (isOutDirOf cfg args)
    (cfg.clock 0) (resolveAddresses cfg args) 0 (loopInit (cfg.clock 0)) st hr
  have hres2 : res = buildResults cfg 0 (resolveAddresses cfg args) [] := by
    rw [hres, h1]
    rfl
  refine ⟨hres2, ?_, ?_, ?_⟩
  · rw [hres2]
    exact nodup_keys_buildResults cfg _ 0 [] (by simp)
  · intro a
    rw [hres2, mem_keys_buildResults]
    simp
  · intro a j hj
    rw [hres2]
    have hl := lookup_buildResults_last cfg (resolveAddresses cfg args) 0 [] a j hj
    simpa using hl

/-- C4 witness: a concrete completed run over the fallback address. -/
theorem c4_one_record_witness :
    program cfg404 argsNone = Outcome.completed evs404 res404 ∧
    res404 = buildResults cfg404 0 (resolveAddresses cfg404 argsNone) [] ∧
    (res404.map Prod.fst).Nodup ∧
    (DEFAULT_ADDRESS ∈ res404.map Prod.fst ↔
      DEFAULT_ADDRESS ∈ resolveAddresses cfg404 argsNone) ∧
    List.lookup DEFAULT_ADDRESS res404 = some (recordOf cfg404 0 DEFAULT_ADDRESS) :=
  ⟨by rfl,
   (c4_one_record_per_address cfg404 argsNone evs404 res404 (by rfl)).1,
   (c4_one_record_per_address cfg404 argsNone evs404 res404 (by rfl)).2.1,
   (c4_one_record_per_address cfg404 argsNone evs404 res404 (by rfl)).2.2.1
     DEFAULT_ADDRESS,
   (c4_one_record_per_address cfg404 argsNone evs404 res404 (by rfl)).2.2.2
     DEFAULT_ADDRESS 0 (by rfl)⟩

/-- C5: address resolution priority: a truthy CLI override alone
becomes the list for every configuration (no other source consulted);
otherwise the first of ADDRESSES, TOKENS, TOKENS_LIST whose cleaned
comma/newline split is non-empty wins, in that order; otherwise the
settings-file scan when it yields entries; and when every source yields
nothing the list is exactly the single fallback address. -/
theorem c5_resolution_priority :
    (∀ (cfg : Config) (o : Option String) (a : String), a ≠ "" →
       rawAddresses cfg ⟨some a, o⟩ = [a]) ∧
    (∀ cfg : Config, envParts cfg "ADDRESSES" ≠ [] →
       load_addresses cfg = envParts cfg "ADDRESSES") ∧
    (∀ cfg : Config, envParts cfg "ADDRESSES" = [] →
       envParts cfg "TOKENS" ≠ [] →
       load_addresses cfg = envParts cfg "TOKENS") ∧
    (∀ cfg : Config, envParts cfg "ADDRESSES" = [] →
       envParts cfg "TOKENS" = [] → envParts cfg "TOKENS_LIST" ≠ [] →
       load_addresses cfg = envParts cfg "TOKENS_LIST") ∧
    (∀ (cfg : Config) (text : String), envParts cfg "ADDRESSES" = [] →
       envParts cfg "TOKENS" = [] → envParts cfg "TOKENS_LIST" = [] →
       cfg.envFile = some text →
       extract_addresses_from_env_file text ≠ [] →
       load_addresses cfg = extract_addresses_from_env_file text) ∧
    (∀ cfg : Config, envParts cfg "ADDRESSES" = [] →
       envParts cfg "TOKENS" = [] → envParts cfg "TOKENS_LIST" = [] →
       (cfg.envFile = none ∨
        ∀ text, cfg.envFile = some text →
          extract_addresses_from_env_file text = []) →
       load_addresses cfg = [DEFAULT_ADDRESS]) := by
  refine ⟨?_, ?_, ?_, ?_, ?_, ?_⟩
  · intro cfg o a ha
    simp [rawAddresses, ha]
  · intro cfg h
    simp [load_addresses, firstEnvParts, envKeys, h]
  · intro cfg h1 h2
    simp [load_addresses, firstEnvParts, envKeys, h1, h2]
  · intro cfg h1 h2 h3
    simp [load_addresses, firstEnvParts, envKeys, h1, h2, h3]
  · intro cfg text h1 h2 h3 hf hne
    simp [load_addresses, firstEnvParts, envKeys, h1, h2, h3, hf, hne]
  · intro cfg h1 h2 h3 hfile
    rcases hfile with hnone | hall
    · simp [load_addresses, firstEnvParts, envKeys, h1, h2, h3, hnone]
    · rcases hf : cfg.envFile with _ | text
      · simp [load_addresses, firstEnvParts, envKeys, h1, h2, h3, hf]
      · have hx := hall text hf
        simp [load_addresses, firstEnvParts, envKeys, h1, h2, h3, hf, hx]

/-- C5 witness: a concrete override and a concrete all-sources-empty
fallback. -/
theorem c5_resolution_witness :
    ("x" ≠ "") ∧ rawAddresses cfg404 ⟨some "x", none⟩ = ["x"] ∧
    envParts cfg404 "ADDRESSES" = [] ∧
    load_addresses cfg404 = [DEFAULT_ADDRESS] :=
  ⟨by decide, c5_resolution_priority.1 cfg404 none "x" (by decide), by rfl,
   c5_resolution_priority.2.2.2.2.2 cfg404 (by rfl) (by rfl) (by rfl)
     (Or.inl (by rfl))⟩

/-- C6: an output path is classified as a directory exactly when it
exists and is a directory, or the raw argument ends with a path
separator, or its name has no suffix; in directory mode a completed
run's file writes are exactly one raw-payload `<address>.json` per
successfully fetched address, emitted inside the loop (before the final
summary print), and in file mode the only file write is the single
combined mapping written at the end. -/
theorem c6_output_modes :
    (∀ (ex isd : Bool) (raw : String),
       is_out_dir_calc ex isd raw = true ↔
         ((ex = true ∧ isd = true) ∨ endsWithSep raw '/' = true ∨
          endsWithSep raw '\\' = true ∨ pySuffix (pathName raw) = "")) ∧
    (∀ (cfg : Config) (args : Args) (o : String) (evs : List Event)
       (res : List (String × ResultRecord)),
       outArg args = some o → isOutDirOf cfg args = true →
       program cfg args = Outcome.completed evs res →
       writesOf evs = perAddrWrites cfg o 0 (resolveAddresses cfg args) ∧
       evs = Event.sampleClock (cfg.clock 0) ::
         (loopEvents cfg (some o) true (cfg.clock 0) 0
            (resolveAddresses cfg args) ++ [Event.printResults res])) ∧
    (∀ (cfg : Config) (args : Args) (o : String) (evs : List Event)
       (res : List (String × ResultRecord)),
       outArg args = some o → isOutDirOf cfg args = false →
       program cfg args = Outcome.completed evs res →
       writesOf evs = [(SavePath.plain o, FileContent.mapping res)]) := by
  refine ⟨?_, ?_, ?_⟩
  · intro ex isd raw
    unfold is_out_dir_calc
    cases ex <;> cases isd <;>
      cases h1 : endsWithSep raw '/' <;> cases h2 : endsWithSep raw '\\' <;>
      cases h3 : pySuffix (pathName raw) == "" <;>
      simp_all
  · intro cfg args o evs res ho hdm h
    obtain ⟨st, hr, hres, hevs⟩ := program_completed_char cfg args evs res h
    rw [ho, hdm] at hr hevs
    obtain ⟨-, h2⟩ := runLoop_ok_char cfg (some o) true (cfg.clock 0)
      (resolveAddresses cfg args) 0 (loopInit (cfg.clock 0)) st hr
    have hevs2 : evs = Event.sampleClock (cfg.clock 0) ::
        (loopEvents cfg (some o) true (cfg.clock 0) 0
          (resolveAddresses cfg args) ++ [Event.printResults st.results]) := by
      rw [hevs, h2]
      rfl
    rw [hres]
    refine ⟨?_, hevs2⟩
    rw [hevs2]
    have : writesOf (Event.sampleClock (cfg.clock 0) ::
        (loopEvents cfg (some o) true (cfg.clock 0) 0
          (resolveAddresses cfg args) ++ [Event.printResults st.results])) =
        writesOf (loopEvents cfg (some o) true (cfg.clock 0) 0
          (resolveAddresses cfg args)) := by
      simp [writesOf]
    rw [this, writesOf_loopEvents_dir]
  · intro cfg args o evs res ho hdm h
    obtain ⟨st, hr, hres, hevs⟩ := program_completed_char cfg args evs res h
    rw [ho, hdm] at hr hevs
    obtain ⟨-, h2⟩ := runLoop_ok_char cfg (some o) false (cfg.clock 0)
      (resolveAddresses cfg args) 0 (loopInit (cfg.clock 0)) st hr
    rw [hevs, h2, hres]
    have hl := writesOf_loopEvents_noDir cfg (some o) false (cfg.clock 0)
      (Or.inr rfl) (resolveAddresses cfg args) 0
    rw [writesOf_append, writesOf_append, hl]
    rfl

/-- C6 witness: concrete runs exercising both output modes. -/
theorem c6_output_witness :
    program cfgOk argsDirOut = Outcome.completed evsOkDir resOkA1 ∧
    writesOf evsOkDir =
      perAddrWrites cfgOk "outdir" 0 (resolveAddresses cfgOk argsDirOut) ∧
    program cfgMongoFail argsFileOut =
      Outcome.completed evsFileOut resMongoFailA1 ∧
    writesOf evsFileOut =
      [(SavePath.plain "out.json", FileContent.mapping resMongoFailA1)] :=
  ⟨by rfl,
   (c6_output_modes.2.1 cfgOk argsDirOut "outdir" evsOkDir resOkA1
     (by rfl) (by rfl) (by rfl)).1,
   by rfl,
   c6_output_modes.2.2 cfgMongoFail argsFileOut "out.json" evsFileOut
     resMongoFailA1 (by rfl) (by rfl) (by rfl)⟩

/-- C7: the process exits with code 2 when the API key or the database
URI is missing or when the resolved address list is empty, and with
code 3 when the document-store connection or ping fails; an early exit
produces no run trace (no fetch-loop work). -/
theorem c7_exit_codes :
    (∀ (cfg : Config) (args : Args), truthy cfg.api_key = false →
       program cfg args = Outcome.exited 2) ∧
    (∀ (cfg : Config) (args : Args), truthy cfg.mongo_uri = false →
       program cfg args = Outcome.exited 2) ∧
    (∀ (cfg : Config) (args : Args), resolveAddresses cfg args = [] →
       program cfg args = Outcome.exited 2) ∧
    (∀ (cfg : Config) (args : Args), truthy cfg.api_key = true →
       truthy cfg.mongo_uri = true → resolveAddresses cfg args ≠ [] →
       cfg.connectErr.isSome = true → program cfg args = Outcome.exited 3) ∧
    (∀ (cfg : Config) (args : Args) (c : Nat),
       program cfg args = Outcome.exited c →
       eventsOf (program cfg args) = none) := by
  refine ⟨?_, ?_, ?_, ?_, ?_⟩
  · intro cfg args h
    simp [program, h]
  · intro cfg args h
    by_cases h1 : truthy cfg.api_key = true <;> simp [program, h1, h]
  · intro cfg args h
    by_cases h1 : truthy cfg.api_key = true <;>
      by_cases h2 : truthy cfg.mongo_uri = true <;>
        simp [program, h1, h2, h]
  · intro cfg args h1 h2 h3 h4
    simp [program, h1, h2, h3, h4]
  · intro cfg args c h
    rw [h]
    rfl

/-- C7 witness: concrete configurations hitting each exit path. -/
theorem c7_exit_codes_witness :
    program cfgNoKey argsNone = Outcome.exited 2 ∧
    program cfgNoUri argsNone = Outcome.exited 2 ∧
    program cfg404 argsBlank = Outcome.exited 2 ∧
    program cfgConnFail argsNone = Outcome.exited 3 ∧
    eventsOf (program cfgConnFail argsNone) = none :=
  ⟨c7_exit_codes.1 cfgNoKey argsNone (by rfl),
   c7_exit_codes.2.1 cfgNoUri argsNone (by rfl),
   c7_exit_codes.2.2.1 cfg404 argsBlank (by rfl),
   c7_exit_codes.2.2.2.1 cfgConnFail argsNone (by rfl) (by rfl) (by decide)
     (by rfl),
   c7_exit_codes.2.2.2.2 cfgConnFail argsNone 3
     (c7_exit_codes.2.2.2.1 cfgConnFail argsNone (by rfl) (by rfl) (by decide)
       (by rfl))⟩

/-- C8: whenever the process gets past its startup checks, its trace
contains exactly one wall-clock sample, and every document whose
insertion is attempted carries that sampled value as `fetched_at` (the
timestamp is not re-sampled per address). -/
theorem c8_single_timestamp (cfg : Config) (args : Args) (evs : List Event)
    (h : eventsOf (program cfg args) = some evs) :
    clockSamplesOf evs = [cfg.clock 0] ∧
    ∀ d ∈ insertsOf evs, d.fetched_at = cfg.clock 0 := by
  obtain ⟨st, e?, hr, hcase⟩ := program_events_char cfg args evs h
  obtain ⟨ext, he, hclock, hins⟩ := runLoop_any_char cfg (outArg args)
    (isOutDirOf cfg args) (cfg.clock 0) (resolveAddresses cfg args) 0
    (loopInit (cfg.clock 0))
  rw [hr] at he
  have hst : st.events = Event.sampleClock (cfg.clock 0) :: ext := he
  have hsc : clockSamplesOf st.events = [cfg.clock 0] := by
    rw [hst]
    have hcons : clockSamplesOf (Event.sampleClock (cfg.clock 0) :: ext) =
        cfg.clock 0 :: clockSamplesOf ext := rfl
    rw [hcons, hclock]
  have hic : ∀ d ∈ insertsOf st.events, d.fetched_at = cfg.clock 0 := by
    intro d hd
    rw [hst] at hd
    simp only [insertsOf, List.filterMap_cons] at hd
    exact hins d hd
  rcases hcase with rfl | rfl
  · exact ⟨hsc, hic⟩
  · constructor
    · rw [clockSamplesOf_append, hsc, clockSamplesOf_finalEvents,
        List.append_nil]
    · intro d hd
      rw [insertsOf_append, insertsOf_finalEvents, List.append_nil] at hd
      exact hic d hd

/-- C8 witness: a concrete run's single clock sample. -/
theorem c8_single_timestamp_witness :
    eventsOf (program cfg404 argsNone) = some evs404 ∧
    clockSamplesOf evs404 = [cfg404.clock 0] :=
  ⟨by rfl, (c8_single_timestamp cfg404 argsNone evs404 (by rfl)).1⟩

/-- C10: in directory mode every directory-creation call of a completed
run is paired one-to-one with a per-address file write (creation
happens only as a side effect of `save_result`), so when no fetch in
the run succeeds there is no directory-creation call and no file write
at all. -/
theorem c10_dir_side_effect (cfg : Config) (args : Args) (o : String)
    (evs : List Event) (res : List (String × ResultRecord))
    (ho : outArg args = some o) (hdir : isOutDirOf cfg args = true)
    (hc : program cfg args = Outcome.completed evs res) :
    mkdirsOf evs = (writesOf evs).map Prod.fst ∧
    ((∀ p ∈ List.enumFrom 0 (resolveAddresses cfg args),
        successData cfg p.1 p.2 = none) →
      mkdirsOf evs = [] ∧ writesOf evs = []) := by
  obtain ⟨st, hr, hres, hevs⟩ := program_completed_char cfg args evs res hc
  rw [ho, hdir] at hr hevs
  obtain ⟨-, h2⟩ := runLoop_ok_char cfg (some o) true (cfg.clock 0)
    (resolveAddresses cfg args) 0 (loopInit (cfg.clock 0)) st hr
  have hevs2 : evs = Event.sampleClock (cfg.clock 0) ::
      (loopEvents cfg (some o) true (cfg.clock 0) 0
        (resolveAddresses cfg args) ++ [Event.printResults st.results]) := by
    rw [hevs, h2]
    rfl
  have hw : writesOf evs = perAddrWrites cfg o 0 (resolveAddresses cfg args) := by
    rw [hevs2]
    have : writesOf (Event.sampleClock (cfg.clock 0) ::
        (loopEvents cfg (some o) true (cfg.clock 0) 0
          (resolveAddresses cfg args) ++ [Event.printResults st.results])) =
        writesOf (loopEvents cfg (some o) true (cfg.clock 0) 0
          (resolveAddresses cfg args)) := by
      simp [writesOf]
    rw [this, writesOf_loopEvents_dir]
  have hm : mkdirsOf evs = (writesOf evs).map Prod.fst := by
    rw [hevs2]
    have hm1 : mkdirsOf (Event.sampleClock (cfg.clock 0) ::
        (loopEvents cfg (some o) true (cfg.clock 0) 0
          (resolveAddresses cfg args) ++ [Event.printResults st.results])) =
        mkdirsOf (loopEvents cfg (some o) true (cfg.clock 0) 0
          (resolveAddresses cfg args)) := by
      simp [mkdirsOf]
    have hm2 : writesOf (Event.sampleClock (cfg.clock 0) ::
        (loopEvents cfg (some o) true (cfg.clock 0) 0
          (resolveAddresses cfg args) ++ [Event.printResults st.results])) =
        writesOf (loopEvents cfg (some o) true (cfg.clock 0) 0
          (resolveAddresses cfg args)) := by
      simp [writesOf]
    rw [hm1, hm2, mkdirsOf_loopEvents_dir]
  refine ⟨hm, ?_⟩
  intro hfail
  have hp : perAddrWrites cfg o 0 (resolveAddresses cfg args) = [] :=
    perAddrWrites_nil cfg o (resolveAddresses cfg args) 0 hfail
  have hwe : writesOf evs = [] := by rw [hw, hp]
  exact ⟨by rw [hm, hwe]; rfl, hwe⟩

/-- C10 witness: a concrete directory-mode run in which every fetch
fails, with no mkdir and no file write in its trace. -/
theorem c10_dir_side_effect_witness :
    outArg ⟨none, some "outdir"⟩ = some "outdir" ∧
    isOutDirOf cfg404 ⟨none, some "outdir"⟩ = true ∧
    program cfg404 ⟨none, some "outdir"⟩ = Outcome.completed evs404 res404 ∧
    mkdirsOf evs404 = [] ∧ writesOf evs404 = [] :=
  ⟨by rfl, by rfl, by rfl,
   ((c10_dir_side_effect cfg404 ⟨none, some "outdir"⟩ "outdir" evs404 res404
       (by rfl) (by rfl) (by rfl)).2 (by decide)).1,
   ((c10_dir_side_effect cfg404 ⟨none, some "outdir"⟩ "outdir" evs404 res404
       (by rfl) (by rfl) (by rfl)).2 (by decide)).2⟩

end LapisTokens
